import Mathlib

/-!
Shallow embedding of the collection ownership and permission-resolution
engine of `src/collection_manager.cpp` (class `CollectionManager`).

The database state (relations `collections`, `collection_permissions`,
`collection_books`, plus the `users` and `books` tables consulted by the
engine) is modelled as lists of rows.  Each C++ member function that
issues SQL is translated into a Lean function over this state: reads
become `List.find?` / `List.filter` / `List.any` over the rows, writes
return an updated state together with the function's C++ return value.
Timestamps and usernames are not modelled: no claim under consideration
depends on them.  SQL `SERIAL` id allocation is modelled by a
`nextCollectionId` counter.
-/

namespace MyLibrary

/-- The four-level permission enum of `collection_manager.h`
(`enum class CollectionPermission`), declared in the order
VIEW, ADD_BOOKS, EDIT, ADMIN so that the C++ `static_cast<int>`
ranks 0,1,2,3 coincide with constructor indices. -/
inductive CollectionPermission where
  | VIEW
  | ADD_BOOKS
  | EDIT
  | ADMIN
deriving DecidableEq, Repr

/-- The integer rank used by `hasPermission`
(`static_cast<int>(permission)` on the C++ enum). -/
def CollectionPermission.rank : CollectionPermission → Nat
  | .VIEW => 0
  | .ADD_BOOKS => 1
  | .EDIT => 2
  | .ADMIN => 3

/-- One row of the `collections` relation. -/
structure CollectionRow where
  id : Int
  name : String
  description : String
  owner_id : Int
  is_public : Bool
deriving DecidableEq, Repr

/-- One row of the `collection_permissions` relation.  The permission
level is persisted as a string (`permission_type` column), exactly as in
the SQL schema used by `grantPermission` / `getUserPermission`. -/
structure GrantRow where
  collection_id : Int
  user_id : Int
  permission_type : String
  granted_by : Int
deriving DecidableEq, Repr

/-- One row of the `collection_books` relation.  `added_by` is nullable
in the schema (`added_by_result[0][0].is_null()` is checked in
`removeBookFromCollection`). -/
structure MembershipRow where
  collection_id : Int
  book_id : Int
  added_by : Option Int
deriving DecidableEq, Repr

/-- The database state visible to `CollectionManager`: the three
collection relations plus the id sets of the `users` and `books` tables
(the engine only ever asks whether a user/book id exists). -/
structure DB where
  collections : List CollectionRow
  permissions : List GrantRow
  memberships : List MembershipRow
  users : List Int
  books : List Int
  nextCollectionId : Int
deriving DecidableEq, Repr

/-- Embeds `CollectionManager::permissionToString` (collection_manager.cpp,
lines 1026-1034).  The C++ `default:` arm is unreachable on the closed
enum, so the Lean match is total over the four constructors. -/
def permissionToString : CollectionPermission → String
  | .VIEW => "view"
  | .ADD_BOOKS => "add_books"
  | .EDIT => "edit"
  | .ADMIN => "admin"

/-- Embeds `CollectionManager::stringToPermission` (collection_manager.cpp,
lines 1041-1047): four string comparisons, `nullopt` otherwise. -/
def stringToPermission (permission_str : String) : Option CollectionPermission :=
  if permission_str = "view" then some .VIEW
  else if permission_str = "add_books" then some .ADD_BOOKS
  else if permission_str = "edit" then some .EDIT
  else if permission_str = "admin" then some .ADMIN
  else none

/-- Embeds `CollectionManager::getUserPermission` (collection_manager.cpp,
lines 921-963).  Mirrors the three successive queries: owner lookup,
explicit-grant lookup (whose stored string is parsed with
`stringToPermission`), then the `is_public` re-query of the same
`collections` row. -/
def getUserPermission (db : DB) (collection_id user_id : Int) :
    Option CollectionPermission :=
  match db.collections.find? (fun c => c.id == collection_id) with
  | none => none
  | some c =>
    if c.owner_id == user_id then
      some .ADMIN
    else
      match db.permissions.find?
          (fun g => g.collection_id == collection_id && g.user_id == user_id) with
      | some g => stringToPermission g.permission_type
      | none =>
        match db.collections.find? (fun c => c.id == collection_id) with
        | some c2 => if c2.is_public then some .VIEW else none
        | none => none

/-- Embeds `CollectionManager::hasPermission` (collection_manager.cpp,
lines 1178-1189): resolve the effective permission and compare integer
ranks. -/
def hasPermission (db : DB) (collection_id user_id : Int)
    (required : CollectionPermission) : Bool :=
  match getUserPermission db collection_id user_id with
  | none => false
  | some p => decide (required.rank ≤ p.rank)

/-- Embeds `CollectionManager::getCollectionOwner` (collection_manager.cpp,
lines 1196-1213): owner id of the first matching row, `-1` when the
collection does not exist. -/
def getCollectionOwner (db : DB) (collection_id : Int) : Int :=
  match db.collections.find? (fun c => c.id == collection_id) with
  | none => -1
  | some c => c.owner_id

/-- The SQL upsert of `grantPermission` (`INSERT ... ON CONFLICT
(collection_id, user_id) DO UPDATE SET permission_type = ...,
granted_by = ...`): update the existing row for the pair when one
exists, append a fresh row otherwise. -/
def upsertGrant (perms : List GrantRow) (collection_id user_id : Int)
    (permission_str : String) (granted_by : Int) : List GrantRow :=
  if perms.any (fun g => g.collection_id == collection_id && g.user_id == user_id) then
    perms.map (fun g =>
      if g.collection_id == collection_id && g.user_id == user_id then
        { g with permission_type := permission_str, granted_by := granted_by }
      else g)
  else
    perms ++ [⟨collection_id, user_id, permission_str, granted_by⟩]

/-- Embeds `CollectionManager::grantPermission` (collection_manager.cpp,
lines 812-863): granting user must satisfy ADMIN or be the owner; the
owner may never be a grant target; the target user must exist; then the
level string is upserted for the pair. -/
def grantPermission (db : DB) (collection_id user_id : Int)
    (permission : CollectionPermission) (granting_user_id : Int) : Bool × DB :=
  if !hasPermission db collection_id granting_user_id .ADMIN &&
      getCollectionOwner db collection_id != granting_user_id then
    (false, db)
  else if getCollectionOwner db collection_id == user_id then
    (false, db)
  else if !(db.users.contains user_id) then
    (false, db)
  else
    (true, { db with
      permissions :=
        upsertGrant db.permissions collection_id user_id
          (permissionToString permission) granting_user_id })

/-- Embeds `CollectionManager::revokePermission` (collection_manager.cpp,
lines 872-913): revoking user must satisfy ADMIN or be the owner; the
owner may never be a revoke target; deleting zero rows reports
failure. -/
def revokePermission (db : DB) (collection_id user_id revoking_user_id : Int) :
    Bool × DB :=
  if !hasPermission db collection_id revoking_user_id .ADMIN &&
      getCollectionOwner db collection_id != revoking_user_id then
    (false, db)
  else if getCollectionOwner db collection_id == user_id then
    (false, db)
  else
    let remaining := db.permissions.filter
      (fun g => !(g.collection_id == collection_id && g.user_id == user_id))
    if remaining.length == db.permissions.length then
      (false, db)
    else
      (true, { db with permissions := remaining })

/-- Embeds `CollectionManager::createCollection` (collection_manager.cpp,
lines 43-85): reject a duplicate (owner, name) pair, otherwise insert
the row and return the fresh serial id.  No other validation is
performed on the arguments. -/
def createCollection (db : DB) (owner_id : Int) (name description : String)
    (is_public : Bool) : Int × DB :=
  if db.collections.any (fun c => c.owner_id == owner_id && c.name == name) then
    (-1, db)
  else
    let cid := db.nextCollectionId
    (cid, { db with
      collections := db.collections ++ [⟨cid, name, description, owner_id, is_public⟩],
      nextCollectionId := cid + 1 })

/-- Embeds `CollectionManager::deleteCollection` (collection_manager.cpp,
lines 261-290): actor must satisfy ADMIN or be the owner; then one
transaction runs `DELETE FROM collections WHERE id = $1` and reports
failure when zero rows were affected.

The removal of the matching `collection_permissions` and
`collection_books` rows is *Modelled from the spec*: the DDL of these
three tables is not in the repository's sources (only `users`, `books`
and `user_book_progress` are created in database.cpp), and the code
relies on it — "CASCADE will handle related records".  Spec §6:
"Deleting a `collections` row must cascade-delete matching rows in the
other two relations." -/
def deleteCollection (db : DB) (collection_id user_id : Int) : Bool × DB :=
  if !hasPermission db collection_id user_id .ADMIN &&
      getCollectionOwner db collection_id != user_id then
    (false, db)
  else
    let remaining := db.collections.filter (fun c => !(c.id == collection_id))
    if remaining.length == db.collections.length then
      (false, db)
    else
      (true, { db with
        collections := remaining,
        permissions := db.permissions.filter (fun g => !(g.collection_id == collection_id)),
        memberships := db.memberships.filter (fun m => !(m.collection_id == collection_id)) })

/-- The `Collection` value assembled by `getCollection` and the
discovery queries (usernames and timestamps are outside the model). -/
structure CollectionView where
  id : Int
  name : String
  description : String
  owner_id : Int
  is_public : Bool
  book_ids : List Int
  book_count : Int
deriving DecidableEq, Repr

/-- Row-to-view assembly of `getCollection`: the book ids of the
collection and the denormalized `book_count`. -/
def mkCollectionView (db : DB) (c : CollectionRow) : CollectionView :=
  let books := (db.memberships.filter (fun m => m.collection_id == c.id)).map
    (fun m => m.book_id)
  ⟨c.id, c.name, c.description, c.owner_id, c.is_public, books, books.length⟩

/-- Embeds `CollectionManager::getCollection` (collection_manager.cpp,
lines 93-163).  The SQL joins `users` on the owner id, so a dangling
owner yields an empty result; a private collection requested by a
non-owner additionally needs `getUserPermission` to return a value.
Both the missing-id case and the no-access case return `none`. -/
def getCollection (db : DB) (collection_id requesting_user_id : Int) :
    Option CollectionView :=
  match db.collections.find? (fun c => c.id == collection_id) with
  | none => none
  | some c =>
    if !(db.users.contains c.owner_id) then
      none
    else if !c.is_public && c.owner_id != requesting_user_id then
      match getUserPermission db collection_id requesting_user_id with
      | none => none
      | some _ => some (mkCollectionView db c)
    else
      some (mkCollectionView db c)

/-- Embeds `CollectionManager::updateCollection` (collection_manager.cpp,
lines 174-253): EDIT permission required; a non-empty new name must not
collide with another collection of the same owner; empty string means
"leave the field unchanged", `none` leaves `is_public` unchanged. -/
def updateCollection (db : DB) (collection_id user_id : Int)
    (name description : String) (is_public : Option Bool) : Bool × DB :=
  if !hasPermission db collection_id user_id .EDIT then
    (false, db)
  else
    let nameConflict :=
      name != "" &&
        (match db.collections.find? (fun c => c.id == collection_id) with
         | some c0 => db.collections.any (fun c =>
             c.owner_id == c0.owner_id && c.name == name && c.id != collection_id)
         | none => false)
    if nameConflict then
      (false, db)
    else
      (true, { db with
        collections := db.collections.map (fun c =>
          if c.id == collection_id then
            { c with
              name := if name != "" then name else c.name,
              description := if description != "" then description else c.description,
              is_public := is_public.getD c.is_public }
          else c) })

/-- Embeds `CollectionManager::addBookToCollection` (collection_manager.cpp,
lines 608-657): ADD_BOOKS permission required, the book must exist in
the `books` table, duplicates are rejected, then the membership row is
inserted with the actor recorded as `added_by`. -/
def addBookToCollection (db : DB) (collection_id book_id user_id : Int) :
    Bool × DB :=
  if !hasPermission db collection_id user_id .ADD_BOOKS then
    (false, db)
  else if !(db.books.contains book_id) then
    (false, db)
  else if db.memberships.any
      (fun m => m.collection_id == collection_id && m.book_id == book_id) then
    (false, db)
  else
    (true, { db with
      memberships := db.memberships ++ [⟨collection_id, book_id, some user_id⟩] })

/-- Embeds `CollectionManager::removeBookFromCollection` (collection_manager.cpp,
lines 666-718): the ADD_BOOKS permission check runs first; failing it,
the membership row's `added_by` (with SQL NULL read as `-1`) must equal
the actor; the delete then reports failure when zero rows were
affected. -/
def removeBookFromCollection (db : DB) (collection_id book_id user_id : Int) :
    Bool × DB :=
  let has_permission := hasPermission db collection_id user_id .ADD_BOOKS
  let authorized :=
    if has_permission then
      some ()
    else
      match db.memberships.find?
          (fun m => m.collection_id == collection_id && m.book_id == book_id) with
      | none => none
      | some m =>
        let added_by := m.added_by.getD (-1)
        if added_by != user_id then none else some ()
  match authorized with
  | none => (false, db)
  | some _ =>
    let remaining := db.memberships.filter
      (fun m => !(m.collection_id == collection_id && m.book_id == book_id))
    if remaining.length == db.memberships.length then
      (false, db)
    else
      (true, { db with memberships := remaining })

/-- Embeds `CollectionManager::isBookInCollection` (collection_manager.cpp,
lines 779-800): `false` without VIEW permission, otherwise the
membership count for the pair. -/
def isBookInCollection (db : DB) (collection_id book_id user_id : Int) : Bool :=
  if !hasPermission db collection_id user_id .VIEW then
    false
  else
    db.memberships.any
      (fun m => m.collection_id == collection_id && m.book_id == book_id)

/-! ### Reference resolver from the spec (for the refinement claim)

Spec §4.3 describes `effectivePermission` over a state whose grant rows
carry a permission *level* (one of the four enum values), not a stored
string.  The definitions below follow the spec's words and are compared
with `getUserPermission` above. -/

/-- A grant row as the spec's data model sees it: the pair plus a
typed permission level (spec §3, PermissionGrant). -/
structure SpecGrant where
  collection_id : Int
  user_id : Int
  level : CollectionPermission
deriving DecidableEq, Repr

/-- The spec-level state read by the Permission Resolver: collection
rows and typed grant rows (spec §4.3 reads only `Collection.owner`,
`Collection.is_public` and the grant rows). -/
structure SpecState where
  collections : List CollectionRow
  grants : List SpecGrant
deriving DecidableEq, Repr

/-- Spec §4.3 `effectivePermission`, in its strict precedence order:
no collection → `none`; owner → ADMIN; explicit grant → its level;
public → VIEW; otherwise `none`. -/
def effectivePermission (s : SpecState) (collection_id user_id : Int) :
    Option CollectionPermission :=
  match s.collections.find? (fun c => c.id == collection_id) with
  | none => none
  | some c =>
    if user_id == c.owner_id then
      some .ADMIN
    else
      match s.grants.find?
          (fun g => g.collection_id == collection_id && g.user_id == user_id) with
      | some g => some g.level
      | none => if c.is_public then some .VIEW else none

/-- Abstraction of a stored grant row to a spec-level grant: parse the
persisted string; rows whose string does not parse have no spec-level
counterpart. -/
def toSpecGrant (g : GrantRow) : Option SpecGrant :=
  (stringToPermission g.permission_type).map
    (fun l => ⟨g.collection_id, g.user_id, l⟩)

/-- Abstraction of the database state to the spec-level state. -/
def toSpec (db : DB) : SpecState :=
  ⟨db.collections, db.permissions.filterMap toSpecGrant⟩

/-- The stored-grant invariant of spec §3: no grant row may exist for
the owner of its collection. -/
def ownerGrantFree (db : DB) : Prop :=
  ∀ g ∈ db.permissions, ∀ c ∈ db.collections,
    c.id = g.collection_id → c.owner_id ≠ g.user_id

/-- Initial state of the §8 "Classics" scenario: users O=1, B=2, P=3,
one catalogued book 42, no collections yet. -/
def classicsDB0 : DB := ⟨[], [], [], [1, 2, 3], [42], 100⟩

/-- State after owner 1 creates the private collection "Classics". -/
def classicsDB1 : DB := (createCollection classicsDB0 1 "Classics" "" false).2

/-- State after owner 1 grants user 2 the ADD_BOOKS level. -/
def classicsDB2 : DB := (grantPermission classicsDB1 100 2 .ADD_BOOKS 1).2

/-- State after user 2 adds book 42 to the collection. -/
def classicsDB3 : DB := (addBookToCollection classicsDB2 100 42 2).2

/-- State after owner 1 flips the collection to public. -/
def classicsDB4 : DB := (updateCollection classicsDB3 100 1 "" "" (some true)).2

/-! ### Theorems -/

/-- Deleting via `filter` removes at least the row that `find?` located,
so the "affected rows" length comparison of the SQL deletes is false. -/
theorem filter_not_length_ne {α : Type} (p : α → Bool) (l : List α) (x : α)
    (h : l.find? p = some x) :
    ((l.filter (fun a => !(p a))).length == l.length) = false := by
  have hmem : x ∈ l := List.mem_of_find?_eq_some h
  have hp : p x = true := List.find?_some h
  have hlt : (l.filter (fun a => !(p a))).length < l.length := by
    rw [List.length_filter_lt_length_iff_exists]
    exact ⟨x, hmem, by simp [hp]⟩
  exact beq_eq_false_iff_ne.mpr (Nat.ne_of_lt hlt)

/-- C7: each of the four permission levels round-trips through
`permissionToString` and `stringToPermission`, and every string outside
the fixed vocabulary parses to `none`, never to a default level. -/
theorem permission_string_roundtrip :
    (∀ L : CollectionPermission,
        stringToPermission (permissionToString L) = some L) ∧
    (∀ s : String, s ≠ "view" → s ≠ "add_books" → s ≠ "edit" → s ≠ "admin" →
        stringToPermission s = none) := by
  constructor
  · intro L
    cases L <;> rfl
  · intro s h1 h2 h3 h4
    simp [stringToPermission, h1, h2, h3, h4]

/-- Witness for C7 at the EDIT level and the unrecognized string
"moderator". -/
theorem permission_string_roundtrip_witness :
    stringToPermission (permissionToString .EDIT) = some .EDIT ∧
    stringToPermission "moderator" = none :=
  ⟨permission_string_roundtrip.1 .EDIT,
   permission_string_roundtrip.2 "moderator" (by decide) (by decide) (by decide)
     (by decide)⟩

/-- C10: when a non-owner has a grant row whose stored permission
string does not parse, `getUserPermission` returns `none` — the grant
branch is taken and the public-VIEW fallback is never reached, so a
corrupt row denies rather than widens access. -/
theorem corrupt_grant_denies_access (db : DB) (cid uid : Int)
    (c : CollectionRow) (g : GrantRow)
    (hc : db.collections.find? (fun x => x.id == cid) = some c)
    (hown : c.owner_id ≠ uid)
    (hg : db.permissions.find?
        (fun x => x.collection_id == cid && x.user_id == uid) = some g)
    (hbad : stringToPermission g.permission_type = none) :
    getUserPermission db cid uid = none := by
  have hb : (c.owner_id == uid) = false := by
    simp [hown]
  simp [getUserPermission, hc, hb, hg, hbad]

/-- Witness for C10: a *public* collection owned by 10, user 2 holding
a grant row whose stored string is "root"; the resolver still returns
`none`. -/
theorem corrupt_grant_denies_access_witness :
    getUserPermission
      ⟨[⟨1, "c", "", 10, true⟩], [⟨1, 2, "root", 99⟩], [], [10, 2], [], 100⟩
      1 2 = none :=
  corrupt_grant_denies_access
    ⟨[⟨1, "c", "", 10, true⟩], [⟨1, 2, "root", 99⟩], [], [10, 2], [], 100⟩
    1 2 ⟨1, "c", "", 10, true⟩ ⟨1, 2, "root", 99⟩
    (by decide) (by decide) (by decide) (by decide)

/-- Counterexample for C4: `createCollection` accepts the empty name —
for owner 1 on an empty store it returns the fresh id 100 (not an
error) and inserts a collection row whose name is the empty string. -/
theorem createCollection_accepts_empty_name :
    (createCollection ⟨[], [], [], [1], [], 100⟩ 1 "" "d" false).1 = 100 ∧
    (createCollection ⟨[], [], [], [1], [], 100⟩ 1 "" "d" false).2.collections =
      [⟨100, "", "d", 1, false⟩] := by
  decide

/-- C4 as amended: `createCollection` performs no name validation
beyond per-owner uniqueness; when the owner has no collection with the
empty name, a call with an empty name succeeds and creates the row. -/
theorem createCollection_empty_name_succeeds (db : DB) (owner : Int)
    (descr : String) (is_pub : Bool)
    (h : db.collections.any
        (fun c => c.owner_id == owner && c.name == "") = false) :
    (createCollection db owner "" descr is_pub).1 = db.nextCollectionId ∧
    (createCollection db owner "" descr is_pub).2.collections =
      db.collections ++ [⟨db.nextCollectionId, "", descr, owner, is_pub⟩] := by
  simp [createCollection, h]

/-- Witness for the amended C4 on an empty store. -/
theorem createCollection_empty_name_succeeds_witness :
    (createCollection ⟨[], [], [], [1], [], 100⟩ 1 "" "d" false).1 = 100 ∧
    (createCollection ⟨[], [], [], [1], [], 100⟩ 1 "" "d" false).2.collections =
      [⟨100, "", "d", 1, false⟩] :=
  createCollection_empty_name_succeeds ⟨[], [], [], [1], [], 100⟩ 1 "d" false
    (by decide)

/-- Counterexample for C3: the denied-access result and the missing-id
result of `getCollection` are the *same* value `none` — collection 1
exists (private, owner 10, requester 2 without grants) while id 99 does
not exist, yet both calls return `none`, so the engine's return level
does not distinguish Forbidden from NotFound. -/
theorem getCollection_forbidden_eq_notfound :
    getCollection ⟨[⟨1, "c", "", 10, false⟩], [], [], [10, 2], [], 100⟩ 1 2
        = none ∧
    getCollection ⟨[⟨1, "c", "", 10, false⟩], [], [], [10, 2], [], 100⟩ 99 2
        = none := by
  decide

/-- C3 as amended: for an existing private collection with a
grant-less non-owner requester, `getCollection` returns `none`, and for
a missing id it also returns `none`: both outcomes collapse to the same
empty optional at the engine's return level. -/
theorem getCollection_none_on_denied_or_missing (db : DB) (cid uid : Int) :
    (∀ c : CollectionRow,
        db.collections.find? (fun x => x.id == cid) = some c →
        c.is_public = false → c.owner_id ≠ uid →
        db.permissions.find?
          (fun g => g.collection_id == cid && g.user_id == uid) = none →
        getCollection db cid uid = none) ∧
    (db.collections.find? (fun x => x.id == cid) = none →
        getCollection db cid uid = none) := by
  constructor
  · intro c hc hpub hown hg
    have hb : (c.owner_id == uid) = false := by simp [hown]
    simp [getCollection, hc, hpub, hb, getUserPermission, hg, hown]
  · intro hc
    simp [getCollection, hc]

/-- Witness for the amended C3 on the concrete store of the
counterexample. -/
theorem getCollection_none_on_denied_or_missing_witness :
    getCollection ⟨[⟨1, "c", "", 10, false⟩], [], [], [10, 2], [], 100⟩ 1 2
        = none :=
  (getCollection_none_on_denied_or_missing
      ⟨[⟨1, "c", "", 10, false⟩], [], [], [10, 2], [], 100⟩ 1 2).1
    ⟨1, "c", "", 10, false⟩ (by decide) (by decide) (by decide) (by decide)

/-- C5: when the membership row for (C, D) records user U as its adder,
`removeBookFromCollection(C, D, U)` succeeds and deletes the row — with
no assumption at all on U's current effective permission, so in
particular also after U's grant has been fully revoked.  The ADD_BOOKS
permission check runs first; only when it fails is the recorded-adder
check consulted, and either path reaches the delete. -/
theorem removeBook_self_retraction (db : DB) (cid bid uid : Int)
    (m : MembershipRow)
    (hm : db.memberships.find?
        (fun x => x.collection_id == cid && x.book_id == bid) = some m)
    (hadd : m.added_by = some uid) :
    (removeBookFromCollection db cid bid uid).1 = true ∧
    (removeBookFromCollection db cid bid uid).2.memberships =
      db.memberships.filter
        (fun x => !(x.collection_id == cid && x.book_id == bid)) := by
  have hlen := filter_not_length_ne
    (fun x : MembershipRow => x.collection_id == cid && x.book_id == bid)
    db.memberships m hm
  cases hp : hasPermission db cid uid .ADD_BOOKS with
  | true =>
    simp only [removeBookFromCollection, hp, hlen]
    simp
  | false =>
    simp only [removeBookFromCollection, hp, hm, hadd, hlen]
    simp

/-- Witness for C5: user 2 added book 42 to private collection 1 (owned
by 10) and holds no grant at all, yet the removal succeeds. -/
theorem removeBook_self_retraction_witness :
    (removeBookFromCollection
        ⟨[⟨1, "c", "", 10, false⟩], [], [⟨1, 42, some 2⟩], [10, 2], [42], 100⟩
        1 42 2).1 = true ∧
    (removeBookFromCollection
        ⟨[⟨1, "c", "", 10, false⟩], [], [⟨1, 42, some 2⟩], [10, 2], [42], 100⟩
        1 42 2).2.memberships =
      List.filter (fun x => !(x.collection_id == 1 && x.book_id == 42))
        [⟨1, 42, some 2⟩] :=
  removeBook_self_retraction
    ⟨[⟨1, "c", "", 10, false⟩], [], [⟨1, 42, some 2⟩], [10, 2], [42], 100⟩
    1 42 2 ⟨1, 42, some 2⟩ (by decide) (by decide)

/-- C2: `deleteCollection` succeeds exactly for the owner or an
ADMIN-satisfying actor; a successful deletion leaves no collection row,
no grant row and no membership row referencing the collection (the
child cascades are modelled from spec §6, the table DDL being outside
src/), and the whole removal is one atomic state transition; an actor
who is neither owner nor ADMIN gets `false` with the state unchanged. -/
theorem deleteCollection_cascade (db : DB) (cid uid : Int) :
    ((getCollectionOwner db cid = uid ∨ hasPermission db cid uid .ADMIN = true) →
      db.collections.any (fun c => c.id == cid) = true →
      (deleteCollection db cid uid).1 = true ∧
      (∀ c ∈ (deleteCollection db cid uid).2.collections, c.id ≠ cid) ∧
      (∀ g ∈ (deleteCollection db cid uid).2.permissions, g.collection_id ≠ cid) ∧
      (∀ m ∈ (deleteCollection db cid uid).2.memberships, m.collection_id ≠ cid)) ∧
    (getCollectionOwner db cid ≠ uid → hasPermission db cid uid .ADMIN = false →
      deleteCollection db cid uid = (false, db)) := by
  constructor
  · intro hauth hex
    have hcond : (!hasPermission db cid uid .ADMIN &&
        getCollectionOwner db cid != uid) = false := by
      rcases hauth with h | h
      · simp [h]
      · simp [h]
    obtain ⟨c, hcmem, hcid⟩ := List.any_eq_true.1 hex
    have hlt : ((db.collections.filter (fun c => !(c.id == cid))).length ==
        db.collections.length) = false := by
      refine beq_eq_false_iff_ne.mpr (Nat.ne_of_lt ?_)
      rw [List.length_filter_lt_length_iff_exists]
      exact ⟨c, hcmem, by simp [hcid]⟩
    refine ⟨by simp [deleteCollection, hcond, hlt], ?_, ?_, ?_⟩
    · intro x hx
      simp [deleteCollection, hcond, hlt] at hx
      exact hx.2
    · intro x hx
      simp [deleteCollection, hcond, hlt] at hx
      exact hx.2
    · intro x hx
      simp [deleteCollection, hcond, hlt] at hx
      exact hx.2
  · intro h1 h2
    simp [deleteCollection, h2, h1]

/-- Witness for C2: owner 10 deletes collection 1, which has one grant
row and one membership row; both child rows vanish with it. -/
theorem deleteCollection_cascade_witness :
    (deleteCollection
        ⟨[⟨1, "c", "", 10, false⟩], [⟨1, 2, "view", 10⟩], [⟨1, 42, some 2⟩],
          [10, 2], [42], 100⟩ 1 10).1 = true ∧
    (∀ c ∈ (deleteCollection
        ⟨[⟨1, "c", "", 10, false⟩], [⟨1, 2, "view", 10⟩], [⟨1, 42, some 2⟩],
          [10, 2], [42], 100⟩ 1 10).2.collections, c.id ≠ 1) ∧
    (∀ g ∈ (deleteCollection
        ⟨[⟨1, "c", "", 10, false⟩], [⟨1, 2, "view", 10⟩], [⟨1, 42, some 2⟩],
          [10, 2], [42], 100⟩ 1 10).2.permissions, g.collection_id ≠ 1) ∧
    (∀ m ∈ (deleteCollection
        ⟨[⟨1, "c", "", 10, false⟩], [⟨1, 2, "view", 10⟩], [⟨1, 42, some 2⟩],
          [10, 2], [42], 100⟩ 1 10).2.memberships, m.collection_id ≠ 1) :=
  (deleteCollection_cascade
      ⟨[⟨1, "c", "", 10, false⟩], [⟨1, 2, "view", 10⟩], [⟨1, 42, some 2⟩],
        [10, 2], [42], 100⟩ 1 10).1
    (Or.inl (by decide)) (by decide)

/-- C9: `isBookInCollection` returns `false` (not an error) whenever
the requester's effective permission does not satisfy VIEW; on a public
collection every requester whose grant rows (if any) parse gets the
true membership answer; and the §8 scenario holds concretely: user 3
sees `false` while "Classics" is private and `true` for the same call
once the owner has set `is_public`. -/
theorem isBookInCollection_gating (db : DB) (cid bid uid : Int) :
    (hasPermission db cid uid .VIEW = false →
      isBookInCollection db cid bid uid = false) ∧
    (∀ c : CollectionRow,
      db.collections.find? (fun x => x.id == cid) = some c →
      c.is_public = true →
      (∀ g ∈ db.permissions, g.collection_id = cid → g.user_id = uid →
        (stringToPermission g.permission_type).isSome = true) →
      isBookInCollection db cid bid uid =
        db.memberships.any
          (fun m => m.collection_id == cid && m.book_id == bid)) ∧
    (isBookInCollection classicsDB3 100 42 3 = false ∧
     isBookInCollection classicsDB4 100 42 3 = true) := by
  refine ⟨?_, ?_, by decide⟩
  · intro h
    simp [isBookInCollection, h]
  · intro c hc hpub hval
    have hv : hasPermission db cid uid .VIEW = true := by
      cases howner : (c.owner_id == uid) with
      | true =>
        simp [hasPermission, getUserPermission, hc, howner,
          CollectionPermission.rank]
      | false =>
        cases hg : db.permissions.find?
            (fun g => g.collection_id == cid && g.user_id == uid) with
        | none =>
          simp [hasPermission, getUserPermission, hc, howner, hg, hpub,
            CollectionPermission.rank]
        | some g =>
          have hpg := List.find?_some hg
          have hgmem := List.mem_of_find?_eq_some hg
          simp only [Bool.and_eq_true, beq_iff_eq] at hpg
          obtain ⟨p, hp⟩ := Option.isSome_iff_exists.1
            (hval g hgmem hpg.1 hpg.2)
          simp only [hasPermission, getUserPermission, hc, howner, hg, hp]
          cases p <;> rfl
    simp [isBookInCollection, hv]

/-- Every row of an upserted grant list either keeps the pair of an
original row or is the upserted pair itself. -/
theorem mem_upsertGrant {l : List GrantRow} {cid uid : Int} {p : String}
    {gb : Int} {g' : GrantRow} (h : g' ∈ upsertGrant l cid uid p gb) :
    (∃ g ∈ l, g'.collection_id = g.collection_id ∧ g'.user_id = g.user_id) ∨
    (g'.collection_id = cid ∧ g'.user_id = uid) := by
  unfold upsertGrant at h
  cases hany : l.any (fun g => g.collection_id == cid && g.user_id == uid) with
  | true =>
    rw [hany] at h
    simp only [if_true] at h
    obtain ⟨g, hgmem, rfl⟩ := List.mem_map.1 h
    cases hg : (g.collection_id == cid && g.user_id == uid) with
    | true => exact Or.inl ⟨g, hgmem, by simp [hg], by simp [hg]⟩
    | false => exact Or.inl ⟨g, hgmem, by simp [hg], by simp [hg]⟩
  | false =>
    rw [hany] at h
    simp only [Bool.false_eq_true, if_false] at h
    rcases List.mem_append.1 h with hmem | hnew
    · exact Or.inl ⟨g', hmem, rfl, rfl⟩
    · simp only [List.mem_singleton] at hnew
      subst hnew
      exact Or.inr ⟨rfl, rfl⟩

/-- C6: a grant row can never come to exist for a collection's owner:
`grantPermission` targeting the owner returns `false` with the state
unchanged (whether or not the caller was even authorized), so does
`revokePermission`, and the grant-writing and collection-deleting
operations preserve the invariant that no stored grant row names the
owner of its collection. -/
theorem owner_grant_invariant (db : DB) (cid uid granter : Int)
    (perm : CollectionPermission) :
    (∀ c : CollectionRow,
        db.collections.find? (fun x => x.id == cid) = some c →
        c.owner_id = uid →
        grantPermission db cid uid perm granter = (false, db) ∧
        revokePermission db cid uid granter = (false, db)) ∧
    ((db.collections.map (fun c => c.id)).Nodup → ownerGrantFree db →
        ownerGrantFree (grantPermission db cid uid perm granter).2 ∧
        ownerGrantFree (revokePermission db cid uid granter).2 ∧
        ownerGrantFree (deleteCollection db cid granter).2) := by
  constructor
  · intro c hc hO
    have howner : getCollectionOwner db cid = uid := by
      simp [getCollectionOwner, hc, hO]
    constructor
    · cases h1 : (!hasPermission db cid granter .ADMIN &&
          getCollectionOwner db cid != granter) with
      | true => simp [grantPermission, h1]
      | false => simp [grantPermission, h1, howner]
    · cases h1 : (!hasPermission db cid granter .ADMIN &&
          getCollectionOwner db cid != granter) with
      | true => simp [revokePermission, h1]
      | false => simp [revokePermission, h1, howner]
  · intro hnd hfree
    refine ⟨?_, ?_, ?_⟩
    · unfold grantPermission
      split
      · exact hfree
      · split
        · exact hfree
        · rename_i h2
          split
          · exact hfree
          · intro g' hg' c hcmem hid
            rcases mem_upsertGrant hg' with ⟨g, hgmem, hc1, hu1⟩ | ⟨hc1, hu1⟩
            · rw [hu1]
              exact hfree g hgmem c hcmem (by rw [← hc1]; exact hid)
            · rw [hu1]
              have hcid : c.id = cid := by rw [hid, hc1]
              cases hfind : db.collections.find? (fun x => x.id == cid) with
              | none =>
                have hnone := List.find?_eq_none.1 hfind c hcmem
                simp [hcid] at hnone
              | some c0 =>
                have hc0id := List.find?_some hfind
                have hc0mem := List.mem_of_find?_eq_some hfind
                simp only [beq_iff_eq] at hc0id
                have hceq : c = c0 :=
                  List.inj_on_of_nodup_map hnd hcmem hc0mem
                    (by rw [hcid, hc0id])
                intro hbad
                apply h2
                have : getCollectionOwner db cid = c0.owner_id := by
                  simp [getCollectionOwner, hfind]
                rw [this, ← hceq, hbad]
                exact beq_self_eq_true uid
    · unfold revokePermission
      split
      · exact hfree
      · split
        · exact hfree
        · dsimp only
          split
          · exact hfree
          · intro g' hg' c hcmem hid
            exact hfree g' (List.mem_filter.1 hg').1 c hcmem hid
    · unfold deleteCollection
      split
      · exact hfree
      · dsimp only
        split
        · exact hfree
        · intro g' hg' c hcmem hid
          exact hfree g' (List.mem_filter.1 hg').1 c
            (List.mem_filter.1 hcmem).1 hid

/-- Witness for C6: granting EDIT to owner 10 of collection 1 fails and
writes nothing, revoking from the owner fails, and the three mutating
operations preserve the owner-grant-free invariant on a store holding
one legitimate grant row. -/
theorem owner_grant_invariant_witness :
    (grantPermission
        ⟨[⟨1, "c", "", 10, false⟩], [⟨1, 2, "view", 10⟩], [], [10, 2], [], 100⟩
        1 10 .EDIT 10 =
      (false,
        ⟨[⟨1, "c", "", 10, false⟩], [⟨1, 2, "view", 10⟩], [], [10, 2], [], 100⟩)) ∧
    ownerGrantFree
      (grantPermission
        ⟨[⟨1, "c", "", 10, false⟩], [⟨1, 2, "view", 10⟩], [], [10, 2], [], 100⟩
        1 10 .EDIT 10).2 :=
  ⟨((owner_grant_invariant
      ⟨[⟨1, "c", "", 10, false⟩], [⟨1, 2, "view", 10⟩], [], [10, 2], [], 100⟩
      1 10 10 .EDIT).1 ⟨1, "c", "", 10, false⟩ (by decide) (by decide)).1,
   ((owner_grant_invariant
      ⟨[⟨1, "c", "", 10, false⟩], [⟨1, 2, "view", 10⟩], [], [10, 2], [], 100⟩
      1 10 10 .EDIT).2 (by decide)
      (by unfold ownerGrantFree; decide)).1⟩

/-- The `find?` lookup ignores a map that neither changes the predicate's value
nor alters any element satisfying it. -/
theorem find?_map_of_untouched {α : Type} (f : α → α) (p : α → Bool)
    (l : List α) (hpres : ∀ g, p (f g) = p g)
    (hid : ∀ g, p g = true → f g = g) :
    (l.map f).find? p = l.find? p := by
  induction l with
  | nil => rfl
  | cons g t ih =>
    simp only [List.map_cons, List.find?_cons]
    cases hg : p g with
    | true =>
      have h1 : p (f g) = true := by rw [hpres]; exact hg
      simp only [h1, hg, hid g hg]
    | false =>
      have h1 : p (f g) = false := by rw [hpres]; exact hg
      simp only [h1, hg, ih]

/-- Upserting the grant of one pair leaves the `find?` lookup of every
other user's grant unchanged. -/
theorem upsertGrant_untouched_find? (l : List GrantRow)
    (cid uid cid' w : Int) (p : String) (gb : Int) (hw : w ≠ uid) :
    (upsertGrant l cid uid p gb).find?
        (fun g => g.collection_id == cid' && g.user_id == w) =
      l.find? (fun g => g.collection_id == cid' && g.user_id == w) := by
  have hwne : (uid == w) = false := beq_eq_false_iff_ne.mpr (Ne.symm hw)
  unfold upsertGrant
  split
  · apply find?_map_of_untouched
    · intro g
      cases hg : (g.collection_id == cid && g.user_id == uid) with
      | true => simp [hg]
      | false => simp [hg]
    · intro g hpg
      have hne : (g.user_id == uid) = false := by
        simp only [Bool.and_eq_true, beq_iff_eq] at hpg
        rw [hpg.2]
        exact beq_eq_false_iff_ne.mpr hw
      simp [hne]
  · rw [List.find?_append]
    have hnone : (([⟨cid, uid, p, gb⟩] : List GrantRow).find?
        (fun g => g.collection_id == cid' && g.user_id == w)) = none := by
      simp [hwne]
    rw [hnone, Option.or_none]

/-- The `getUserPermission` of a user other than the upserted grantee is
unaffected by the upsert. -/
theorem getUserPermission_upsert_untouched (db : DB) (cid uid : Int)
    (p : String) (gb : Int) (cid' w : Int) (hw : w ≠ uid) :
    getUserPermission
        { db with permissions := upsertGrant db.permissions cid uid p gb }
        cid' w =
      getUserPermission db cid' w := by
  unfold getUserPermission
  dsimp only
  rw [upsertGrant_untouched_find? db.permissions cid uid cid' w p gb hw]

/-- The `hasPermission` of a user other than the upserted grantee is
unaffected by the upsert. -/
theorem hasPermission_upsert_untouched (db : DB) (cid uid : Int)
    (p : String) (gb : Int) (cid' w : Int) (req : CollectionPermission)
    (hw : w ≠ uid) :
    hasPermission
        { db with permissions := upsertGrant db.permissions cid uid p gb }
        cid' w req =
      hasPermission db cid' w req := by
  unfold hasPermission
  rw [getUserPermission_upsert_untouched db cid uid p gb cid' w hw]

/-- Map-update branch of the upsert: when the pair occurs (at most
once), filtering the mapped list for the pair yields exactly the
updated row. -/
theorem filter_map_update (l : List GrantRow) (cid uid : Int) (p : String)
    (gb : Int)
    (hcount : l.countP (fun g => g.collection_id == cid && g.user_id == uid) ≤ 1)
    (hany : l.any (fun g => g.collection_id == cid && g.user_id == uid) = true) :
    (l.map (fun g =>
        if g.collection_id == cid && g.user_id == uid then
          { g with permission_type := p, granted_by := gb }
        else g)).filter (fun g => g.collection_id == cid && g.user_id == uid) =
      [⟨cid, uid, p, gb⟩] := by
  induction l with
  | nil => simp at hany
  | cons g t ih =>
    cases hg : (g.collection_id == cid && g.user_id == uid) with
    | true =>
      have hf := hg
      simp only [Bool.and_eq_true, beq_iff_eq] at hf
      have hct : t.countP
          (fun g => g.collection_id == cid && g.user_id == uid) = 0 := by
        rw [List.countP_cons, hg, if_pos rfl] at hcount
        omega
      have htail : ∀ a ∈ t.map (fun g =>
          if g.collection_id == cid && g.user_id == uid then
            { g with permission_type := p, granted_by := gb }
          else g), ¬(a.collection_id == cid && a.user_id == uid) = true := by
        intro a ha
        obtain ⟨b, hb, rfl⟩ := List.mem_map.1 ha
        have hbp : (b.collection_id == cid && b.user_id == uid) = false := by
          have := List.countP_eq_zero.1 hct b hb
          simpa using this
        simp [hbp]
      simp only [List.map_cons, List.filter_cons]
      have hpf : ((if g.collection_id == cid && g.user_id == uid then
          ({ g with permission_type := p, granted_by := gb } : GrantRow)
          else g).collection_id == cid &&
          (if g.collection_id == cid && g.user_id == uid then
          ({ g with permission_type := p, granted_by := gb } : GrantRow)
          else g).user_id == uid) = true := by
        simp [hg]
      rw [if_pos hpf]
      rw [List.filter_eq_nil_iff.2 htail]
      simp [hg, hf.1, hf.2]
    | false =>
      have hct : t.countP
          (fun g => g.collection_id == cid && g.user_id == uid) ≤ 1 := by
        rw [List.countP_cons, hg] at hcount
        simpa using hcount
      have hat : t.any (fun g => g.collection_id == cid && g.user_id == uid)
          = true := by
        rcases List.any_eq_true.1 hany with ⟨x, hx, hpx⟩
        rcases List.mem_cons.1 hx with rfl | hxt
        · rw [hg] at hpx; cases hpx
        · exact List.any_eq_true.2 ⟨x, hxt, hpx⟩
      simp only [List.map_cons, List.filter_cons]
      have hpf : ((if g.collection_id == cid && g.user_id == uid then
          ({ g with permission_type := p, granted_by := gb } : GrantRow)
          else g).collection_id == cid &&
          (if g.collection_id == cid && g.user_id == uid then
          ({ g with permission_type := p, granted_by := gb } : GrantRow)
          else g).user_id == uid) = false := by
        simp [hg]
      rw [if_neg (by rw [hpf]; simp)]
      exact ih hct hat

/-- Filtering an upserted grant list for the upserted pair yields
exactly one row, the upserted one (given the pair-uniqueness constraint
of the `collection_permissions` table). -/
theorem upsertGrant_filter (l : List GrantRow) (cid uid : Int) (p : String)
    (gb : Int)
    (hcount : l.countP (fun g => g.collection_id == cid && g.user_id == uid) ≤ 1) :
    (upsertGrant l cid uid p gb).filter
        (fun g => g.collection_id == cid && g.user_id == uid) =
      [⟨cid, uid, p, gb⟩] := by
  unfold upsertGrant
  cases hany : l.any (fun g => g.collection_id == cid && g.user_id == uid) with
  | true =>
    rw [if_pos rfl]
    exact filter_map_update l cid uid p gb hcount hany
  | false =>
    rw [if_neg (by simp)]
    rw [List.filter_append]
    have h1 : l.filter (fun g => g.collection_id == cid && g.user_id == uid)
        = [] := by
      rw [List.filter_eq_nil_iff]
      intro a ha
      exact List.any_eq_false.1 hany a ha
    rw [h1]
    simp

/-- C8: two successive `grantPermission` calls for the same non-owner
pair by a persistently authorized actor both succeed, and afterwards
exactly one grant row exists for the pair, carrying the level string of
the second call — the upsert replaces the level instead of duplicating
or accumulating rows. -/
theorem grant_upsert_idempotent (db : DB) (cid uid granter : Int)
    (L1 L2 : CollectionPermission)
    (hauth : getCollectionOwner db cid = granter ∨
      hasPermission db cid granter .ADMIN = true)
    (hne : granter ≠ uid)
    (htarget : getCollectionOwner db cid ≠ uid)
    (huser : db.users.contains uid = true)
    (huniq : db.permissions.countP
        (fun g => g.collection_id == cid && g.user_id == uid) ≤ 1) :
    (grantPermission db cid uid L1 granter).1 = true ∧
    (grantPermission (grantPermission db cid uid L1 granter).2
        cid uid L2 granter).1 = true ∧
    ((grantPermission (grantPermission db cid uid L1 granter).2
        cid uid L2 granter).2.permissions.filter
        (fun g => g.collection_id == cid && g.user_id == uid)).map
      (fun g => g.permission_type) = [permissionToString L2] := by
  have hcond1 : (!hasPermission db cid granter .ADMIN &&
      getCollectionOwner db cid != granter) = false := by
    rcases hauth with h | h
    · simp [h]
    · simp [h]
  have hcond2 : (getCollectionOwner db cid == uid) = false :=
    beq_eq_false_iff_ne.mpr htarget
  have hstep1 : grantPermission db cid uid L1 granter =
      (true, { db with
        permissions := upsertGrant db.permissions cid uid (permissionToString L1) granter }) := by
    simp only [grantPermission, hcond1, hcond2, huser]
    simp
  have hown1 : getCollectionOwner
      { db with
        permissions := upsertGrant db.permissions cid uid (permissionToString L1) granter }
      cid = getCollectionOwner db cid := rfl
  have hcond1' : (!hasPermission
      { db with
        permissions := upsertGrant db.permissions cid uid (permissionToString L1) granter }
      cid granter .ADMIN &&
      getCollectionOwner
      { db with
        permissions := upsertGrant db.permissions cid uid (permissionToString L1) granter }
      cid != granter) = false := by
    rw [hown1, hasPermission_upsert_untouched db cid uid
      (permissionToString L1) granter cid granter .ADMIN hne]
    exact hcond1
  have hcond2' : (getCollectionOwner
      { db with
        permissions := upsertGrant db.permissions cid uid (permissionToString L1) granter }
      cid == uid) = false := by
    rw [hown1]
    exact hcond2
  have huser' : ({ db with
      permissions := upsertGrant db.permissions cid uid (permissionToString L1) granter }
      : DB).users.contains uid = true := huser
  have hstep2 : grantPermission
      { db with
        permissions := upsertGrant db.permissions cid uid (permissionToString L1) granter }
      cid uid L2 granter =
      (true, { db with
        permissions := upsertGrant (upsertGrant db.permissions cid uid (permissionToString L1) granter) cid uid (permissionToString L2) granter }) := by
    simp only [grantPermission, hcond1', hcond2', huser']
    simp
  have hcount1 : (upsertGrant db.permissions cid uid
      (permissionToString L1) granter).countP
      (fun g => g.collection_id == cid && g.user_id == uid) ≤ 1 := by
    rw [List.countP_eq_length_filter,
      upsertGrant_filter db.permissions cid uid (permissionToString L1)
        granter huniq]
    simp
  refine ⟨by rw [hstep1], by rw [hstep1, hstep2], ?_⟩
  rw [hstep1, hstep2]
  dsimp only
  rw [upsertGrant_filter _ cid uid (permissionToString L2) granter hcount1]
  simp

/-- Witness for C8: owner 10 grants user 2 first VIEW then EDIT on
collection 1; one row remains, at "edit". -/
theorem grant_upsert_idempotent_witness :
    (grantPermission
        ⟨[⟨1, "c", "", 10, false⟩], [], [], [10, 2], [], 100⟩
        1 2 .VIEW 10).1 = true ∧
    (grantPermission
        (grantPermission
          ⟨[⟨1, "c", "", 10, false⟩], [], [], [10, 2], [], 100⟩
          1 2 .VIEW 10).2 1 2 .EDIT 10).1 = true ∧
    ((grantPermission
        (grantPermission
          ⟨[⟨1, "c", "", 10, false⟩], [], [], [10, 2], [], 100⟩
          1 2 .VIEW 10).2 1 2 .EDIT 10).2.permissions.filter
        (fun g => g.collection_id == 1 && g.user_id == 2)).map
      (fun g => g.permission_type) = [permissionToString .EDIT] :=
  grant_upsert_idempotent
    ⟨[⟨1, "c", "", 10, false⟩], [], [], [10, 2], [], 100⟩
    1 2 10 .VIEW .EDIT (Or.inl (by decide)) (by decide) (by decide)
    (by decide) (by decide)

/-- Looking up a pair in the abstracted grant list agrees with looking
it up in the stored list and parsing, provided every stored string
parses. -/
theorem find?_toSpecGrant (l : List GrantRow) (cid uid : Int)
    (hv : ∀ g ∈ l, (stringToPermission g.permission_type).isSome = true) :
    ((l.filterMap toSpecGrant).find?
        (fun g => g.collection_id == cid && g.user_id == uid)).map
      (fun g => g.level) =
    (l.find? (fun g => g.collection_id == cid && g.user_id == uid)).bind
      (fun g => stringToPermission g.permission_type) := by
  induction l with
  | nil => rfl
  | cons g t ih =>
    obtain ⟨lvl, hlvl⟩ :=
      Option.isSome_iff_exists.1 (hv g (List.mem_cons_self g t))
    have hts : toSpecGrant g = some ⟨g.collection_id, g.user_id, lvl⟩ := by
      simp [toSpecGrant, hlvl]
    have hvt : ∀ x ∈ t, (stringToPermission x.permission_type).isSome = true :=
      fun x hx => hv x (List.mem_cons_of_mem g hx)
    simp only [List.filterMap_cons, hts, List.find?_cons]
    cases hp : (g.collection_id == cid && g.user_id == uid) with
    | true => simp [hp, hlvl]
    | false => simpa [hp] using ih hvt

/-- C1: on any store whose grant strings all parse (the only strings
the engine itself ever writes), `getUserPermission` coincides with the
spec's `effectivePermission` evaluated on the abstracted state, i.e.
with the strict precedence order: missing collection → none, owner →
ADMIN, explicit grant → its level, public → VIEW, otherwise none. -/
theorem getUserPermission_refines_spec (db : DB) (cid uid : Int)
    (hv : ∀ g ∈ db.permissions,
      (stringToPermission g.permission_type).isSome = true) :
    getUserPermission db cid uid = effectivePermission (toSpec db) cid uid := by
  unfold getUserPermission effectivePermission toSpec
  dsimp only
  cases hc : db.collections.find? (fun c => c.id == cid) with
  | none => rfl
  | some c =>
    dsimp only
    cases how : (c.owner_id == uid) with
    | true =>
      have h2 : (uid == c.owner_id) = true := by
        simp only [beq_iff_eq] at how ⊢
        exact how.symm
      simp [how, h2]
    | false =>
      have h2 : (uid == c.owner_id) = false := by
        simp only [beq_eq_false_iff_ne] at how ⊢
        exact fun h => how h.symm
      simp only [how, h2, Bool.false_eq_true, if_false]
      have hlk := find?_toSpecGrant db.permissions cid uid hv
      cases hg : db.permissions.find?
          (fun g => g.collection_id == cid && g.user_id == uid) with
      | none =>
        rw [hg] at hlk
        simp only [Option.none_bind] at hlk
        rw [Option.map_eq_none'] at hlk
        rw [hlk]
      | some g =>
        obtain ⟨lvl, hlvl⟩ := Option.isSome_iff_exists.1
          (hv g (List.mem_of_find?_eq_some hg))
        rw [hg] at hlk
        simp only [Option.some_bind] at hlk
        cases hmg : (db.permissions.filterMap toSpecGrant).find?
            (fun g => g.collection_id == cid && g.user_id == uid) with
        | none =>
          rw [hmg] at hlk
          rw [hlvl] at hlk
          simp at hlk
        | some sg =>
          rw [hmg] at hlk
          simp only [Option.map_some'] at hlk
          exact hlk.symm

/-- Witness for C1 on a store with a public collection and one valid
"edit" grant row for user 2: resolver and spec reference agree. -/
theorem getUserPermission_refines_spec_witness :
    getUserPermission
        ⟨[⟨1, "c", "", 10, true⟩], [⟨1, 2, "edit", 10⟩], [], [10, 2, 3], [], 100⟩
        1 2 =
      effectivePermission
        (toSpec
          ⟨[⟨1, "c", "", 10, true⟩], [⟨1, 2, "edit", 10⟩], [], [10, 2, 3], [],
            100⟩)
        1 2 :=
  getUserPermission_refines_spec
    ⟨[⟨1, "c", "", 10, true⟩], [⟨1, 2, "edit", 10⟩], [], [10, 2, 3], [], 100⟩
    1 2 (by decide)

/-- Witness for C9 on the scenario's final state: the public "Classics"
collection reports the true membership answer to outsider 3. -/
theorem isBookInCollection_gating_witness :
    isBookInCollection classicsDB4 100 42 3 =
      classicsDB4.memberships.any
        (fun m => m.collection_id == 100 && m.book_id == 42) :=
  (isBookInCollection_gating classicsDB4 100 42 3).2.1
    ⟨100, "Classics", "", 1, true⟩ (by decide) (by decide) (by decide)

end MyLibrary
